import Mathlib

/-!
Verification of the holiday_card diorama core against its design spec.

The Rust sources are shallowly embedded: f32 arithmetic is idealized as
exact rational (ℚ) arithmetic, except where IEEE special values matter,
in which case the embedding makes them explicit (the 0.0/0.0 = NaN case
in noise generation is modelled by an Option result, and the f32-to-usize
saturating cast is modelled on an extended value domain).  ECS systems
become pure state-transition functions on records holding exactly the
fields the systems touch.
-/

namespace HolidayCard

/-! ## interaction.rs -/

/-- Embeds interaction.rs aabb_overlap: centered-box AABB test via the
four-inequality exclusion form, with the source's comparisons kept verbatim
(strict < and > inside the negation, hence a non-strict overlap test). -/
def aabb_overlap (p1x p1y w1 h1 p2x p2y w2 h2 : ℚ) : Bool :=
  let half_width_1 := w1 / 2
  let half_height_1 := h1 / 2
  let half_width_2 := w2 / 2
  let half_height_2 := h2 / 2
  let left_1 := p1x - half_width_1
  let right_1 := p1x + half_width_1
  let top_1 := p1y + half_height_1
  let bottom_1 := p1y - half_height_1
  let left_2 := p2x - half_width_2
  let right_2 := p2x + half_width_2
  let top_2 := p2y + half_height_2
  let bottom_2 := p2y - half_height_2
  !(decide (right_1 < left_2) || decide (left_1 > right_2) ||
    decide (top_1 < bottom_2) || decide (bottom_1 > top_2))

/-- Embeds the Interactable component (width, height, id) together with its
entity's Transform translation (x, y). -/
structure Interactable where
  x : ℚ
  y : ℚ
  width : ℚ
  height : ℚ
  id : String
deriving DecidableEq

/-- Embeds the inner loop of detect_overlaps: scan the interactables in
enumeration order and stop at the first AABB overlap (the source's break). -/
def found_overlap (px py w h : ℚ) : List Interactable → Option String
  | [] => none
  | it :: rest =>
    if aabb_overlap px py w h it.x it.y it.width it.height then
      some it.id
    else
      found_overlap px py w h rest

/-- Embeds the match over (currently_in_range, found_overlap) in
detect_overlaps, with the InRange component of one interactor modelled as
an Option String. -/
def updateInRange (current foundOv : Option String) : Option String :=
  match current, foundOv with
  | none, some id => some id
  | some current_id, some new_id =>
    if current_id ≠ new_id then some new_id else some current_id
  | some _, none => none
  | none, none => none

/-- Embeds one iteration of detect_overlaps' outer loop for a single
interactor: compute the first overlap and update the InRange relation. -/
def detect_overlaps_one (px py w h : ℚ) (interactables : List Interactable)
    (current : Option String) : Option String :=
  updateInRange current (found_overlap px py w h interactables)

/-- Embeds interaction.rs State (referenced by fireplace.rs and stereo.rs). -/
inductive State where
  | off
  | on
deriving DecidableEq

/-- Embeds InteractionEvent { id: String }. -/
structure InteractionEvent where
  id : String
deriving DecidableEq

/-- Embeds InRange { id: String }. -/
structure InRange where
  id : String
deriving DecidableEq

/-- Unfolding lemma: aabb_overlap with its let bindings inlined. -/
theorem aabb_overlap_eq (p1x p1y w1 h1 p2x p2y w2 h2 : ℚ) :
    aabb_overlap p1x p1y w1 h1 p2x p2y w2 h2 =
      !(decide (p1x + w1 / 2 < p2x - w2 / 2) || decide (p2x + w2 / 2 < p1x - w1 / 2) ||
        decide (p1y + h1 / 2 < p2y - h2 / 2) || decide (p2y + h2 / 2 < p1y - h1 / 2)) := rfl

/-- C1 counterexample input: boxes of width/height (10,10) centered at
(0,0) and (10,0) are exactly touching; the claim says aabb_overlap must
return false there (strict rule), but the source's negated-strict test
returns true, and the claimed strict characterization fails. -/
theorem aabb_overlap_touching_counterexample :
    aabb_overlap 0 0 10 10 10 0 10 10 = true ∧
    ¬(|(0 : ℚ) - 10| < (10 + 10) / 2 ∧ |(0 : ℚ) - 0| < (10 + 10) / 2) := by
  constructor
  · rw [aabb_overlap_eq, Bool.not_eq_true', Bool.or_eq_false_iff, Bool.or_eq_false_iff,
      Bool.or_eq_false_iff]
    simp only [decide_eq_false_iff_not]
    norm_num
  · norm_num

/-- C1 (amended): aabb_overlap returns true exactly when
|dx| ≤ (w1+w2)/2 and |dy| ≤ (h1+h2)/2 (non-strict: exactly-touching boxes
count as overlapping); in particular (0,0) vs (9,0) gives true, (0,0) vs
(11,0) gives false, and the touching case (0,0) vs (10,0) gives true. -/
theorem aabb_overlap_nonstrict_characterization :
    (∀ p1x p1y w1 h1 p2x p2y w2 h2 : ℚ,
      aabb_overlap p1x p1y w1 h1 p2x p2y w2 h2 = true ↔
        (|p1x - p2x| ≤ (w1 + w2) / 2 ∧ |p1y - p2y| ≤ (h1 + h2) / 2)) ∧
    aabb_overlap 0 0 10 10 9 0 10 10 = true ∧
    aabb_overlap 0 0 10 10 11 0 10 10 = false ∧
    aabb_overlap 0 0 10 10 10 0 10 10 = true := by
  have huniv : ∀ p1x p1y w1 h1 p2x p2y w2 h2 : ℚ,
      aabb_overlap p1x p1y w1 h1 p2x p2y w2 h2 = true ↔
        (|p1x - p2x| ≤ (w1 + w2) / 2 ∧ |p1y - p2y| ≤ (h1 + h2) / 2) := by
    intro p1x p1y w1 h1 p2x p2y w2 h2
    rw [aabb_overlap_eq, Bool.not_eq_true', Bool.or_eq_false_iff, Bool.or_eq_false_iff,
      Bool.or_eq_false_iff, decide_eq_false_iff_not, decide_eq_false_iff_not,
      decide_eq_false_iff_not, decide_eq_false_iff_not, abs_le, abs_le]
    push_neg
    constructor
    · rintro ⟨⟨⟨hx1, hx2⟩, hy1⟩, hy2⟩
      exact ⟨⟨by linarith, by linarith⟩, by linarith, by linarith⟩
    · rintro ⟨⟨hx1, hx2⟩, hy1, hy2⟩
      exact ⟨⟨⟨by linarith, by linarith⟩, by linarith⟩, by linarith⟩
  refine ⟨huniv, ?_, ?_, ?_⟩
  · exact (huniv 0 0 10 10 9 0 10 10).mpr (by norm_num)
  · refine Bool.eq_false_iff.mpr (fun h => ?_)
    have := (huniv 0 0 10 10 11 0 10 10).mp h
    norm_num at this
  · exact (huniv 0 0 10 10 10 0 10 10).mpr (by norm_num)

/-! ## noise.rs -/

/-- Embeds the 256-entry PERMUTATION table (u8 values as ℕ). -/
def PERMUTATION : List ℕ :=
  [151, 160, 137, 91, 90, 15, 131, 13, 201, 95, 96, 53, 194, 233, 7, 225, 140, 36, 103, 30, 69,
   142, 8, 99, 37, 240, 21, 10, 23, 190, 6, 148, 247, 120, 234, 75, 0, 26, 197, 62, 94, 252, 219,
   203, 117, 35, 11, 32, 57, 177, 33, 88, 237, 149, 56, 87, 174, 20, 125, 136, 171, 168, 68, 175,
   74, 165, 71, 134, 139, 48, 27, 166, 77, 146, 158, 231, 83, 111, 229, 122, 60, 211, 133, 230,
   220, 105, 92, 41, 55, 46, 245, 40, 244, 102, 143, 54, 65, 25, 63, 161, 1, 216, 80, 73, 209, 76,
   132, 187, 208, 89, 18, 169, 200, 196, 135, 130, 116, 188, 159, 86, 164, 100, 109, 198, 173,
   186, 3, 64, 52, 217, 226, 250, 124, 123, 5, 202, 38, 147, 118, 126, 255, 82, 85, 212, 207, 206,
   59, 227, 47, 16, 58, 17, 182, 189, 28, 42, 223, 183, 170, 213, 119, 248, 152, 2, 44, 154, 163,
   70, 221, 153, 101, 155, 167, 43, 172, 9, 129, 22, 39, 253, 19, 98, 108, 110, 79, 113, 224, 232,
   178, 185, 112, 104, 218, 246, 97, 228, 251, 34, 242, 193, 238, 210, 144, 12, 191, 179, 162,
   241, 81, 51, 145, 235, 249, 14, 239, 107, 49, 192, 214, 31, 181, 199, 106, 157, 184, 84, 204,
   176, 115, 121, 50, 45, 127, 4, 150, 254, 138, 236, 205, 93, 222, 114, 67, 29, 24, 72, 243, 141,
   128, 195, 78, 66, 215, 61, 156, 180]

/-- The domain of an f32 value fed to the permutation index computation:
a finite value (idealized as an exact rational) or one of the IEEE
non-finite values.  Used to model the totality claim over every f32. -/
inductive F32Val where
  | finite (q : ℚ)
  | nan
  | inf
  | neginf
deriving DecidableEq

/-- Embeds Rust's saturating f32-to-usize cast used in perm's
index as usize: truncation toward zero, negative and NaN inputs give 0,
values at or above 2^64 - 1 (and +inf) saturate to usize::MAX. -/
def f32_to_usize : F32Val → ℕ
  | .finite q => if q < 0 then 0 else min (Int.toNat ⌊q⌋) (2 ^ 64 - 1)
  | .nan => 0
  | .inf => 2 ^ 64 - 1
  | .neginf => 0

/-- Cast as applied to a finite (idealized) f32. -/
def castUsize (q : ℚ) : ℕ := f32_to_usize (.finite q)

/-- The table index computed by perm: the cast value masked with & 255. -/
def permIndex (v : F32Val) : ℕ := f32_to_usize v &&& 255

/-- Embeds noise.rs perm: PERMUTATION[(index as usize) & 255]. -/
def perm (index : ℚ) : ℕ := PERMUTATION.getD (castUsize index &&& 255) 0

/-- Embeds noise.rs fade: t*t*t*(t*(t*6 - 15) + 10) (the mul_add chain
written as exact arithmetic). -/
def fade (t : ℚ) : ℚ := t * t * t * (t * (t * 6 - 15) + 10)

/-- Embeds noise.rs grad: select one of 8 gradient directions from the
low 3 bits of the hash and combine the dot-product terms. -/
def grad (hash : ℕ) (x y : ℚ) : ℚ :=
  let h := hash &&& 7
  let u := if h < 4 then x else y
  let v := if h < 4 then y else x
  let u_sign := if h &&& 1 = 0 then u else -u
  let v_sign := if h &&& 2 = 0 then v else -v
  u_sign + v_sign

/-- Embeds noise.rs lerp: t.mul_add(b - a, a). -/
def lerp (t a b : ℚ) : ℚ := t * (b - a) + a

/-- Embeds noise.rs perlin_2d: hash the four surrounding lattice corners
through the permutation table and blend the corner gradients with the
fade curve. -/
def perlin_2d (x y : ℚ) : ℚ :=
  let x_rel := x - (⌊x⌋ : ℚ)
  let y_rel := y - (⌊y⌋ : ℚ)
  let u := fade x_rel
  let v := fade y_rel
  let a : ℚ := (perm x : ℚ) + y
  let b : ℚ := (perm (x + 1) : ℚ) + y
  let aa := perm a
  let ab := perm (a + 1)
  let ba := perm b
  let bb := perm (b + 1)
  lerp v
    (lerp u (grad aa x_rel y_rel) (grad ba (x_rel - 1) y_rel))
    (lerp u (grad ab x_rel (y_rel - 1)) (grad bb (x_rel - 1) (y_rel - 1)))

/-- The loop state of generate: (total, frequency, amplitude, max_value). -/
structure GenState where
  total : ℚ
  frequency : ℚ
  amplitude : ℚ
  max_value : ℚ
deriving DecidableEq

/-- One iteration of generate's loop body, in source order: accumulate
the weighted octave, then bump max_value by the current amplitude, then
halve the amplitude and double the frequency. -/
def generateStep (x y : ℚ) (s : GenState) : GenState :=
  { total := s.total + perlin_2d (x * s.frequency) (y * s.frequency) * s.amplitude
    frequency := s.frequency * 2
    amplitude := s.amplitude * 0.5
    max_value := s.max_value + s.amplitude }

/-- Embeds noise.rs generate.  The final division total / max_value is an
f32 division; with octaves = 0 it is 0.0 / 0.0 = NaN, which the embedding
makes explicit by returning none exactly when max_value = 0 (for any
octaves ≥ 1 the divisor is nonzero and the result is the exact quotient). -/
def generate (x y : ℚ) (octaves : ℕ) : Option ℚ :=
  let final := (List.range octaves).foldl (fun s _ => generateStep x y s)
    { total := 0, frequency := 1, amplitude := 1, max_value := 0 }
  if final.max_value = 0 then none else some (final.total / final.max_value)

/-- C2: with octaves = 0 the loop never runs, so generate computes
0.0 / 0.0 = NaN (modelled as none): the call is neither rejected nor a
no-op returning 0 — it silently produces NaN for every input. -/
theorem generate_zero_octaves_nan (x y : ℚ) : generate x y 0 = none := by
  simp [generate]

set_option maxRecDepth 4000 in
/-- C10: the permutation lookup is total — for every f32 input (finite of
either sign, fractional, NaN or an infinity) the saturating cast masked
with & 255 is an in-bounds index of the 256-entry table, so the lookup
always succeeds. -/
theorem perm_index_in_bounds :
    ∀ v : F32Val, permIndex v < 256 ∧ (PERMUTATION.get? (permIndex v)).isSome = true := by
  intro v
  have hlen : PERMUTATION.length = 256 := rfl
  have hlt : permIndex v < 256 := by
    have h255 : permIndex v ≤ 255 := Nat.and_le_right
    omega
  refine ⟨hlt, ?_⟩
  rw [List.get?_eq_getElem?, List.getElem?_eq_getElem (by rw [hlen]; exact hlt)]
  rfl

/-! ### Range of the noise generator (C5) -/

theorem fade_nonneg (t : ℚ) (h0 : 0 ≤ t) : 0 ≤ fade t := by
  have hq : (0 : ℚ) < 6 * t ^ 2 - 15 * t + 10 := by nlinarith [sq_nonneg (2 * t - 5 / 2)]
  have hf : fade t = t ^ 3 * (6 * t ^ 2 - 15 * t + 10) := by unfold fade; ring
  rw [hf]
  exact mul_nonneg (pow_nonneg h0 3) hq.le

theorem fade_le_one (t : ℚ) (h1 : t ≤ 1) : fade t ≤ 1 := by
  have key : 1 - fade t = (1 - t) ^ 3 * (6 * t ^ 2 + 3 * t + 1) := by unfold fade; ring
  have h3 : (0 : ℚ) ≤ (1 - t) ^ 3 := pow_nonneg (by linarith) 3
  have hq : (0 : ℚ) ≤ 6 * t ^ 2 + 3 * t + 1 := by nlinarith [sq_nonneg (t + 1 / 4)]
  nlinarith [mul_nonneg h3 hq]

theorem abs_grad_le (h : ℕ) (x y : ℚ) : |grad h x y| ≤ |x| + |y| := by
  have hdef : grad h x y =
      (if h &&& 7 &&& 1 = 0 then (if h &&& 7 < 4 then x else y)
       else -(if h &&& 7 < 4 then x else y)) +
      (if h &&& 7 &&& 2 = 0 then (if h &&& 7 < 4 then y else x)
       else -(if h &&& 7 < 4 then y else x)) := rfl
  rw [hdef]
  split_ifs <;>
    refine (abs_add _ _).trans ?_ <;>
    linarith [abs_nonneg x, abs_nonneg y, abs_neg x, abs_neg y]

theorem abs_lerp_le (t a b A B : ℚ) (h0 : 0 ≤ t) (h1 : t ≤ 1)
    (ha : |a| ≤ A) (hb : |b| ≤ B) : |lerp t a b| ≤ (1 - t) * A + t * B := by
  have hl : lerp t a b = (1 - t) * a + t * b := by unfold lerp; ring
  rw [hl]
  calc |(1 - t) * a + t * b| ≤ |(1 - t) * a| + |t * b| := abs_add _ _
    _ = (1 - t) * |a| + t * |b| := by
        rw [abs_mul, abs_mul, abs_of_nonneg (by linarith : (0:ℚ) ≤ 1 - t), abs_of_nonneg h0]
    _ ≤ (1 - t) * A + t * B := by
        exact add_le_add (mul_le_mul_of_nonneg_left ha (by linarith))
          (mul_le_mul_of_nonneg_left hb h0)

/-- The fade-weighted blend of a fractional coordinate against its
complement never exceeds 1/2 — the quintic fade's key metric property. -/
theorem fade_weight_le_half (t : ℚ) (h0 : 0 ≤ t) (h1 : t ≤ 1) :
    (1 - fade t) * t + fade t * (1 - t) ≤ 1 / 2 := by
  have key : (1 - fade t) * t + fade t * (1 - t) =
      1 / 2 - (1 / 2) * (1 - 2 * t) ^ 2 * (6 * t ^ 2 * (1 - t) ^ 2 + 2 * t * (1 - t) + 1) := by
    unfold fade; ring
  have ht : (0 : ℚ) ≤ t * (1 - t) := mul_nonneg h0 (by linarith)
  have hq : (0 : ℚ) ≤ 6 * t ^ 2 * (1 - t) ^ 2 + 2 * t * (1 - t) + 1 := by
    nlinarith [sq_nonneg (t * (1 - t))]
  nlinarith [mul_nonneg (sq_nonneg (1 - 2 * t)) hq]

/-- Core bound: the double-lerp corner blend used by perlin_2d has absolute
value at most 1 when the relative coordinates lie in the unit cell,
whatever the corner hashes are. -/
theorem perlin_core_le_one (xr yr : ℚ) (aa ab ba bb : ℕ)
    (hx0 : 0 ≤ xr) (hx1 : xr < 1) (hy0 : 0 ≤ yr) (hy1 : yr < 1) :
    |lerp (fade yr) (lerp (fade xr) (grad aa xr yr) (grad ba (xr - 1) yr))
      (lerp (fade xr) (grad ab xr (yr - 1)) (grad bb (xr - 1) (yr - 1)))| ≤ 1 := by
  have hu0 : 0 ≤ fade xr := fade_nonneg _ hx0
  have hu1 : fade xr ≤ 1 := fade_le_one _ hx1.le
  have hv0 : 0 ≤ fade yr := fade_nonneg _ hy0
  have hv1 : fade yr ≤ 1 := fade_le_one _ hy1.le
  have hax : |xr| = xr := abs_of_nonneg hx0
  have hay : |yr| = yr := abs_of_nonneg hy0
  have hax1 : |xr - 1| = 1 - xr := by rw [abs_of_nonpos (by linarith)]; ring
  have hay1 : |yr - 1| = 1 - yr := by rw [abs_of_nonpos (by linarith)]; ring
  have b00 : |grad aa xr yr| ≤ xr + yr := by
    have := abs_grad_le aa xr yr; rw [hax, hay] at this; exact this
  have b10 : |grad ba (xr - 1) yr| ≤ (1 - xr) + yr := by
    have := abs_grad_le ba (xr - 1) yr; rw [hax1, hay] at this; exact this
  have b01 : |grad ab xr (yr - 1)| ≤ xr + (1 - yr) := by
    have := abs_grad_le ab xr (yr - 1); rw [hax, hay1] at this; exact this
  have b11 : |grad bb (xr - 1) (yr - 1)| ≤ (1 - xr) + (1 - yr) := by
    have := abs_grad_le bb (xr - 1) (yr - 1); rw [hax1, hay1] at this; exact this
  have i1 := abs_lerp_le (fade xr) _ _ _ _ hu0 hu1 b00 b10
  have i2 := abs_lerp_le (fade xr) _ _ _ _ hu0 hu1 b01 b11
  have o := abs_lerp_le (fade yr) _ _ _ _ hv0 hv1 i1 i2
  have key : (1 - fade yr) * ((1 - fade xr) * (xr + yr) + fade xr * ((1 - xr) + yr)) +
      fade yr * ((1 - fade xr) * (xr + (1 - yr)) + fade xr * ((1 - xr) + (1 - yr))) =
      ((1 - fade xr) * xr + fade xr * (1 - xr)) +
        ((1 - fade yr) * yr + fade yr * (1 - yr)) := by ring
  have hFx := fade_weight_le_half xr hx0 hx1.le
  have hFy := fade_weight_le_half yr hy0 hy1.le
  linarith [o, key ▸ o]

/-- Single-octave gradient noise stays in [-1, 1] in absolute value. -/
theorem abs_perlin_le_one (x y : ℚ) : |perlin_2d x y| ≤ 1 := by
  have hdef : perlin_2d x y =
      lerp (fade (y - (⌊y⌋ : ℚ)))
        (lerp (fade (x - (⌊x⌋ : ℚ)))
          (grad (perm ((perm x : ℚ) + y)) (x - (⌊x⌋ : ℚ)) (y - (⌊y⌋ : ℚ)))
          (grad (perm ((perm (x + 1) : ℚ) + y)) (x - (⌊x⌋ : ℚ) - 1) (y - (⌊y⌋ : ℚ))))
        (lerp (fade (x - (⌊x⌋ : ℚ)))
          (grad (perm ((perm x : ℚ) + y + 1)) (x - (⌊x⌋ : ℚ)) (y - (⌊y⌋ : ℚ) - 1))
          (grad (perm ((perm (x + 1) : ℚ) + y + 1)) (x - (⌊x⌋ : ℚ) - 1)
            (y - (⌊y⌋ : ℚ) - 1))) := rfl
  rw [hdef]
  exact perlin_core_le_one _ _ _ _ _ _
    (by linarith [Int.floor_le x]) (by linarith [Int.lt_floor_add_one x])
    (by linarith [Int.floor_le y]) (by linarith [Int.lt_floor_add_one y])

/-- Invariant of generate's octave loop: the accumulated total is bounded
by the running normalizer, and amplitude and normalizer have their closed
forms (1/2)^n and 2 - 2*(1/2)^n. -/
theorem generate_fold_spec (x y : ℚ) (n : ℕ) :
    |((List.range n).foldl (fun s _ => generateStep x y s) ⟨0, 1, 1, 0⟩).total| ≤
      ((List.range n).foldl (fun s _ => generateStep x y s) ⟨0, 1, 1, 0⟩).max_value ∧
    ((List.range n).foldl (fun s _ => generateStep x y s) ⟨0, 1, 1, 0⟩).amplitude =
      (1 / 2) ^ n ∧
    ((List.range n).foldl (fun s _ => generateStep x y s) ⟨0, 1, 1, 0⟩).max_value =
      2 - 2 * (1 / 2) ^ n := by
  induction n with
  | zero => norm_num
  | succ k ih =>
    obtain ⟨h1, h2, h3⟩ := ih
    rw [List.range_succ, List.foldl_append, List.foldl_cons, List.foldl_nil]
    set s := (List.range k).foldl (fun s _ => generateStep x y s) ⟨0, 1, 1, 0⟩ with hs
    have ha : (0 : ℚ) ≤ s.amplitude := by
      rw [h2]; positivity
    refine ⟨?_, ?_, ?_⟩
    · show |s.total + perlin_2d (x * s.frequency) (y * s.frequency) * s.amplitude| ≤
        s.max_value + s.amplitude
      have hp := abs_perlin_le_one (x * s.frequency) (y * s.frequency)
      calc |s.total + perlin_2d (x * s.frequency) (y * s.frequency) * s.amplitude|
          ≤ |s.total| + |perlin_2d (x * s.frequency) (y * s.frequency) * s.amplitude| :=
            abs_add _ _
        _ = |s.total| + |perlin_2d (x * s.frequency) (y * s.frequency)| * s.amplitude := by
            rw [abs_mul, abs_of_nonneg ha]
        _ ≤ s.max_value + 1 * s.amplitude :=
            add_le_add h1 (mul_le_mul_of_nonneg_right hp ha)
        _ = s.max_value + s.amplitude := by ring
    · show s.amplitude * 0.5 = (1 / 2 : ℚ) ^ (k + 1)
      rw [h2, pow_succ]; norm_num
    · show s.max_value + s.amplitude = 2 - 2 * (1 / 2 : ℚ) ^ (k + 1)
      rw [h2, h3, pow_succ]; ring

/-- C5: for every input and every octaves ≥ 1, generate returns a value
(no NaN) lying in the closed interval [-1, 1]. -/
theorem generate_range (x y : ℚ) (octaves : ℕ) (h : 1 ≤ octaves) :
    ∃ v, generate x y octaves = some v ∧ -1 ≤ v ∧ v ≤ 1 := by
  obtain ⟨h1, h2, h3⟩ := generate_fold_spec x y octaves
  set s := (List.range octaves).foldl (fun s _ => generateStep x y s) ⟨0, 1, 1, 0⟩ with hs
  have hpow : ((1 : ℚ) / 2) ^ octaves ≤ (1 / 2 : ℚ) ^ 1 :=
    pow_le_pow_of_le_one (by norm_num) (by norm_num) h
  have hm1 : (1 : ℚ) ≤ s.max_value := by
    rw [h3]
    have : ((1 : ℚ) / 2) ^ 1 = 1 / 2 := by norm_num
    linarith [hpow, this ▸ hpow]
  have hm0 : s.max_value ≠ 0 := by linarith
  refine ⟨s.total / s.max_value, ?_, ?_, ?_⟩
  · show (if s.max_value = 0 then none else some (s.total / s.max_value)) =
      some (s.total / s.max_value)
    rw [if_neg hm0]
  · have hb := abs_le.mp h1
    rw [neg_le, ← neg_div, div_le_one (by linarith : (0 : ℚ) < s.max_value)]
    linarith [hb.1]
  · have hb := abs_le.mp h1
    rw [div_le_one (by linarith : (0 : ℚ) < s.max_value)]
    exact hb.2

/-- Concrete instance of the C5 range theorem at (0, 0) with one octave. -/
theorem generate_range_witness :
    ∃ v, generate 0 0 1 = some v ∧ -1 ≤ v ∧ v ≤ 1 :=
  generate_range 0 0 1 (by norm_num)

/-! ### Proximity tracking (C7) and dispatch (C8) -/

/-- The InRange update of detect_overlaps always ends up holding exactly
the freshly computed first-overlap id (the keep-branch only fires when the
ids already agree). -/
theorem updateInRange_eq (current foundOv : Option String) :
    updateInRange current foundOv = foundOv := by
  cases current <;> cases foundOv <;> simp [updateInRange]

theorem found_overlap_eq_none (px py w h : ℚ) (its : List Interactable)
    (hall : ∀ a ∈ its, aabb_overlap px py w h a.x a.y a.width a.height = false) :
    found_overlap px py w h its = none := by
  induction its with
  | nil => rfl
  | cons a rest ih =>
    have ha := hall a (List.mem_cons_self a rest)
    rw [found_overlap, ha]
    simp only [Bool.false_eq_true, if_false]
    exact ih fun b hb => hall b (List.mem_cons_of_mem a hb)

theorem found_overlap_first (px py w h : ℚ) (its : List Interactable)
    (i : ℕ) (hi : i < its.length)
    (hov : aabb_overlap px py w h (its.get ⟨i, hi⟩).x (its.get ⟨i, hi⟩).y
      (its.get ⟨i, hi⟩).width (its.get ⟨i, hi⟩).height = true)
    (hbefore : ∀ j (hj : j < its.length), j < i →
      aabb_overlap px py w h (its.get ⟨j, hj⟩).x (its.get ⟨j, hj⟩).y
        (its.get ⟨j, hj⟩).width (its.get ⟨j, hj⟩).height = false) :
    found_overlap px py w h its = some (its.get ⟨i, hi⟩).id := by
  induction its generalizing i with
  | nil => exact absurd hi (by simp)
  | cons a rest ih =>
    cases i with
    | zero =>
      simp only [List.get] at hov ⊢
      rw [found_overlap, hov]
      simp
    | succ n =>
      have ha : aabb_overlap px py w h a.x a.y a.width a.height = false :=
        hbefore 0 (by simp) (Nat.succ_pos n)
      rw [found_overlap, ha]
      simp only [Bool.false_eq_true, if_false]
      simp only [List.get] at hov ⊢
      exact ih n (Nat.lt_of_succ_lt_succ hi) hov
        (fun j hj hlt => hbefore (j + 1) (Nat.succ_lt_succ hj) (Nat.succ_lt_succ hlt))

/-- C7: after a per-tick proximity update the interactor's relation (an
Option, hence at most one) equals the id of the first overlapping
interactable in enumeration order, and is removed when none overlaps —
whatever relation was present before. -/
theorem detect_overlaps_first_match (px py w h : ℚ) (its : List Interactable)
    (current : Option String) :
    detect_overlaps_one px py w h its current = found_overlap px py w h its ∧
    ((∀ a ∈ its, aabb_overlap px py w h a.x a.y a.width a.height = false) →
      detect_overlaps_one px py w h its current = none) ∧
    (∀ i (hi : i < its.length),
      aabb_overlap px py w h (its.get ⟨i, hi⟩).x (its.get ⟨i, hi⟩).y
        (its.get ⟨i, hi⟩).width (its.get ⟨i, hi⟩).height = true →
      (∀ j (hj : j < its.length), j < i →
        aabb_overlap px py w h (its.get ⟨j, hj⟩).x (its.get ⟨j, hj⟩).y
          (its.get ⟨j, hj⟩).width (its.get ⟨j, hj⟩).height = false) →
      detect_overlaps_one px py w h its current = some (its.get ⟨i, hi⟩).id) := by
  refine ⟨updateInRange_eq _ _, ?_, ?_⟩
  · intro hall
    rw [detect_overlaps_one, updateInRange_eq]
    exact found_overlap_eq_none px py w h its hall
  · intro i hi hov hbefore
    rw [detect_overlaps_one, updateInRange_eq]
    exact found_overlap_first px py w h its i hi hov hbefore

/-- Concrete instance of C7: the interactor at the origin overlaps the
second and third interactables; the relation becomes the second's id
(first in enumeration order), replacing the stale one. -/
theorem detect_overlaps_first_match_witness :
    detect_overlaps_one 0 0 10 10
      [⟨100, 100, 2, 2, "a"⟩, ⟨3, 0, 4, 4, "b"⟩, ⟨0, 0, 4, 4, "c"⟩]
      (some "old") = some "b" := by
  have h := (detect_overlaps_first_match 0 0 10 10
    [⟨100, 100, 2, 2, "a"⟩, ⟨3, 0, 4, 4, "b"⟩, ⟨0, 0, 4, 4, "c"⟩] (some "old")).2.2
    1 (by norm_num)
  refine h ?_ ?_
  · show aabb_overlap 0 0 10 10 3 0 4 4 = true
    unfold aabb_overlap; norm_num
  · intro j hj hlt
    interval_cases j
    show aabb_overlap 0 0 10 10 100 100 2 2 = false
    unfold aabb_overlap; norm_num

/-! ### theman.rs handle_interactions (C8) -/

/-- Embeds theman.rs State (player character state machine). -/
inductive ManState where
  | idle
  | action
  | walking
  | sitting
deriving DecidableEq

/-- Embeds theman.rs handle_interactions: for each changed character state,
for each InRange relation, emit an InteractionEvent with the relation's id
when the state is Action. -/
def handle_interactions (changedStates : List ManState) (ranges : List InRange) :
    List InteractionEvent :=
  changedStates.flatMap fun s =>
    ranges.filterMap fun r =>
      if s = ManState.action then some ⟨r.id⟩ else none

/-- C8: with no InRange relation present no InteractionEvent is emitted,
and every emitted event carries the id of a tracked relation — in
particular, with a single tracked relation every event carries exactly
that proximity id. -/
theorem handle_interactions_requires_in_range (changedStates : List ManState)
    (ranges : List InRange) :
    (ranges = [] → handle_interactions changedStates ranges = []) ∧
    (∀ e ∈ handle_interactions changedStates ranges, ∃ r ∈ ranges, e.id = r.id) ∧
    (∀ r₀, ranges = [r₀] → ∀ e ∈ handle_interactions changedStates ranges, e.id = r₀.id) := by
  refine ⟨?_, ?_, ?_⟩
  · rintro rfl
    simp [handle_interactions]
  · intro e he
    simp only [handle_interactions, List.mem_flatMap, List.mem_filterMap] at he
    obtain ⟨s, _, r, hr, hsome⟩ := he
    refine ⟨r, hr, ?_⟩
    by_cases hs : s = ManState.action
    · rw [if_pos hs] at hsome
      cases hsome
      rfl
    · rw [if_neg hs] at hsome
      cases hsome
  · rintro r₀ rfl e he
    simp only [handle_interactions, List.mem_flatMap, List.mem_filterMap] at he
    obtain ⟨s, _, r, hr, hsome⟩ := he
    simp only [List.mem_singleton] at hr
    subst hr
    by_cases hs : s = ManState.action
    · rw [if_pos hs] at hsome
      cases hsome
      rfl
    · rw [if_neg hs] at hsome
      cases hsome

/-- Concrete instance of C8: an Action transition with no relation emits
nothing; with the tracked relation "stereo" every event carries "stereo". -/
theorem handle_interactions_requires_in_range_witness :
    handle_interactions [ManState.action] [] = [] ∧
    (⟨"stereo"⟩ : InteractionEvent).id = InRange.id ⟨"stereo"⟩ :=
  ⟨(handle_interactions_requires_in_range [ManState.action] []).1 rfl,
   (handle_interactions_requires_in_range [ManState.action] [⟨"stereo"⟩]).2.2
     ⟨"stereo"⟩ rfl ⟨"stereo"⟩ (by decide)⟩

/-! ## flickering_light.rs component / fireplace.rs / stereo.rs -/

/-- Embeds the FlickeringLight component (colors as linear srgb triples). -/
structure FlickeringLight where
  seed : ℚ
  intensity_amplitude : ℚ
  intensity_frequency : ℚ
  intensity_min : ℚ
  intensity_octaves : ℕ
  color_frequency : ℚ
  color_octaves : ℕ
  color_seed_offset : ℚ
  color_temperature : ℚ
  colors : List (ℚ × ℚ × ℚ)
  time_offset : ℚ
deriving DecidableEq

/-- Embeds the Sprite fields the prop systems touch: the image handle and
the optional texture atlas (layout handle, index).  Handles are modelled
as opaque numeric ids. -/
structure Sprite where
  image : ℕ
  texture_atlas : Option (ℕ × ℕ)
deriving DecidableEq

namespace Fireplace

/-- Embeds fireplace.rs SpriteAssets. -/
structure SpriteAssets where
  running_sprite : ℕ
  running_layout : ℕ
  off_sprite : ℕ
deriving DecidableEq

def INTERACTABLE_ID : String := "fireplace"

def LIGHT_COLORS : List (ℚ × ℚ × ℚ) :=
  [(1, 0.6, 0.2), (1, 0.62, 0.18), (1, 0.58, 0.22)]

def INTENSITY_OCTAVES : ℕ := 4
def COLOR_OCTAVES : ℕ := 2
def INTENSITY_FREQ : ℚ := 2
def INTENSITY_MIN : ℚ := 0.6
def INTENSITY_AMPLITUDE : ℚ := 0.4
def COLOR_FREQ : ℚ := 1
def COLOR_TEMPERATURE : ℚ := 0.2
def COLOR_SEED_OFFSET : ℚ := 100

/-- The fireplace entity's state as touched by its Update systems. -/
structure Ent where
  state : State
  sprite : Sprite
  light_intensity : ℚ
  flicker : Option FlickeringLight
  audio_playing : Bool
deriving DecidableEq

/-- Embeds fireplace.rs handle_interaction: fold over the frame's events;
a matching id toggles the state and swaps the sprite; the Bool records
whether the State component was written (Bevy's Changed flag). -/
def handle_interaction (assets : SpriteAssets) (events : List InteractionEvent)
    (e : Ent) : Ent × Bool :=
  events.foldl (fun p ev =>
    if ev.id = INTERACTABLE_ID then
      match p.1.state with
      | .off =>
        ({ p.1 with
            state := State.on
            sprite := { image := assets.running_sprite
                        texture_atlas := some (assets.running_layout, 0) } }, true)
      | .on =>
        ({ p.1 with
            state := State.off
            sprite := { image := assets.off_sprite, texture_atlas := none } }, true)
    else p) (e, false)

/-- Embeds fireplace.rs handle_sound (runs only on Changed State). -/
def handle_sound (changed : Bool) (e : Ent) : Ent :=
  if changed then
    match e.state with
    | .on => { e with audio_playing := true }
    | .off => { e with audio_playing := false }
  else e

/-- Embeds fireplace.rs handle_light (runs only on Changed State): On
inserts a FlickeringLight built from the module constants and the frame's
rng draws; Off removes it and forces the light intensity to zero. -/
def handle_light (seed time_offset : ℚ) (changed : Bool) (e : Ent) : Ent :=
  if changed then
    match e.state with
    | .on =>
      { e with
          flicker := some { seed := seed
                            intensity_amplitude := INTENSITY_AMPLITUDE
                            intensity_frequency := INTENSITY_FREQ
                            intensity_min := INTENSITY_MIN
                            intensity_octaves := INTENSITY_OCTAVES
                            color_frequency := COLOR_FREQ
                            color_octaves := COLOR_OCTAVES
                            color_seed_offset := COLOR_SEED_OFFSET
                            color_temperature := COLOR_TEMPERATURE
                            colors := LIGHT_COLORS
                            time_offset := time_offset } }
    | .off =>
      { e with
          flicker := none
          light_intensity := 0 }
  else e

/-- One Update pass over the fireplace systems reacting to this frame's
events: interaction handling, then the Changed-State reactions. -/
def tick (assets : SpriteAssets) (seed time_offset : ℚ)
    (events : List InteractionEvent) (e : Ent) : Ent :=
  let p := handle_interaction assets events e
  handle_light seed time_offset p.2 (handle_sound p.2 p.1)

end Fireplace

namespace Stereo

/-- Embeds stereo.rs SpriteAssets. -/
structure SpriteAssets where
  running_sprite : ℕ
  running_layout : ℕ
  off_sprite : ℕ
deriving DecidableEq

def INTERACTABLE_ID : String := "stereo"

/-- The stereo entity's state as touched by its Update systems. -/
structure Ent where
  state : State
  sprite : Sprite
  audio_playing : Bool
deriving DecidableEq

/-- Embeds stereo.rs handle_interaction (identical shape to the
fireplace's, filtering on the "stereo" id). -/
def handle_interaction (assets : SpriteAssets) (events : List InteractionEvent)
    (e : Ent) : Ent × Bool :=
  events.foldl (fun p ev =>
    if ev.id = INTERACTABLE_ID then
      match p.1.state with
      | .off =>
        ({ p.1 with
            state := State.on
            sprite := { image := assets.running_sprite
                        texture_atlas := some (assets.running_layout, 0) } }, true)
      | .on =>
        ({ p.1 with
            state := State.off
            sprite := { image := assets.off_sprite, texture_atlas := none } }, true)
    else p) (e, false)

/-- Embeds stereo.rs handle_sound (runs only on Changed State). -/
def handle_sound (changed : Bool) (e : Ent) : Ent :=
  if changed then
    match e.state with
    | .on => { e with audio_playing := true }
    | .off => { e with audio_playing := false }
  else e

/-- One Update pass over the stereo systems for this frame's events. -/
def tick (assets : SpriteAssets) (events : List InteractionEvent) (e : Ent) : Ent :=
  let p := handle_interaction assets events e
  handle_sound p.2 p.1

end Stereo

/-- C3: a fireplace in Off receiving a matching event switches to On, shows
the running ("on") sprite and gets a FlickeringLight with the module's
parameters attached; a second matching event switches back to Off, removes
the FlickeringLight, restores the "off" sprite and forces the light
intensity to exactly 0 with no fade. -/
theorem fireplace_toggle_on_off (assets : Fireplace.SpriteAssets) (s1 t1 s2 t2 : ℚ)
    (e : Fireplace.Ent) (h : e.state = State.off) :
    (Fireplace.tick assets s1 t1 [⟨"fireplace"⟩] e).state = State.on ∧
    (Fireplace.tick assets s1 t1 [⟨"fireplace"⟩] e).sprite.image = assets.running_sprite ∧
    (Fireplace.tick assets s1 t1 [⟨"fireplace"⟩] e).flicker = some
      { seed := s1
        intensity_amplitude := Fireplace.INTENSITY_AMPLITUDE
        intensity_frequency := Fireplace.INTENSITY_FREQ
        intensity_min := Fireplace.INTENSITY_MIN
        intensity_octaves := Fireplace.INTENSITY_OCTAVES
        color_frequency := Fireplace.COLOR_FREQ
        color_octaves := Fireplace.COLOR_OCTAVES
        color_seed_offset := Fireplace.COLOR_SEED_OFFSET
        color_temperature := Fireplace.COLOR_TEMPERATURE
        colors := Fireplace.LIGHT_COLORS
        time_offset := t1 } ∧
    (Fireplace.tick assets s2 t2 [⟨"fireplace"⟩]
      (Fireplace.tick assets s1 t1 [⟨"fireplace"⟩] e)).state = State.off ∧
    (Fireplace.tick assets s2 t2 [⟨"fireplace"⟩]
      (Fireplace.tick assets s1 t1 [⟨"fireplace"⟩] e)).flicker = none ∧
    (Fireplace.tick assets s2 t2 [⟨"fireplace"⟩]
      (Fireplace.tick assets s1 t1 [⟨"fireplace"⟩] e)).sprite.image = assets.off_sprite ∧
    (Fireplace.tick assets s2 t2 [⟨"fireplace"⟩]
      (Fireplace.tick assets s1 t1 [⟨"fireplace"⟩] e)).light_intensity = 0 := by
  obtain ⟨st, sp, li, fl, au⟩ := e
  simp only at h
  subst h
  simp [Fireplace.tick, Fireplace.handle_interaction, Fireplace.handle_sound,
    Fireplace.handle_light, Fireplace.INTERACTABLE_ID]

/-- Concrete instance of C3 starting from a fully specified Off fireplace. -/
theorem fireplace_toggle_on_off_witness :
    (Fireplace.tick ⟨10, 11, 12⟩ 7 8 [⟨"fireplace"⟩]
      ⟨State.off, ⟨12, none⟩, 0, none, false⟩).state = State.on ∧
    (Fireplace.tick ⟨10, 11, 12⟩ 7 8 [⟨"fireplace"⟩]
      ⟨State.off, ⟨12, none⟩, 0, none, false⟩).sprite.image = (10 : ℕ) ∧
    (Fireplace.tick ⟨10, 11, 12⟩ 7 8 [⟨"fireplace"⟩]
      ⟨State.off, ⟨12, none⟩, 0, none, false⟩).flicker = some
      { seed := 7
        intensity_amplitude := Fireplace.INTENSITY_AMPLITUDE
        intensity_frequency := Fireplace.INTENSITY_FREQ
        intensity_min := Fireplace.INTENSITY_MIN
        intensity_octaves := Fireplace.INTENSITY_OCTAVES
        color_frequency := Fireplace.COLOR_FREQ
        color_octaves := Fireplace.COLOR_OCTAVES
        color_seed_offset := Fireplace.COLOR_SEED_OFFSET
        color_temperature := Fireplace.COLOR_TEMPERATURE
        colors := Fireplace.LIGHT_COLORS
        time_offset := 8 } ∧
    (Fireplace.tick ⟨10, 11, 12⟩ 9 13 [⟨"fireplace"⟩]
      (Fireplace.tick ⟨10, 11, 12⟩ 7 8 [⟨"fireplace"⟩]
        ⟨State.off, ⟨12, none⟩, 0, none, false⟩)).state = State.off ∧
    (Fireplace.tick ⟨10, 11, 12⟩ 9 13 [⟨"fireplace"⟩]
      (Fireplace.tick ⟨10, 11, 12⟩ 7 8 [⟨"fireplace"⟩]
        ⟨State.off, ⟨12, none⟩, 0, none, false⟩)).flicker = none ∧
    (Fireplace.tick ⟨10, 11, 12⟩ 9 13 [⟨"fireplace"⟩]
      (Fireplace.tick ⟨10, 11, 12⟩ 7 8 [⟨"fireplace"⟩]
        ⟨State.off, ⟨12, none⟩, 0, none, false⟩)).sprite.image = (12 : ℕ) ∧
    (Fireplace.tick ⟨10, 11, 12⟩ 9 13 [⟨"fireplace"⟩]
      (Fireplace.tick ⟨10, 11, 12⟩ 7 8 [⟨"fireplace"⟩]
        ⟨State.off, ⟨12, none⟩, 0, none, false⟩)).light_intensity = 0 :=
  fireplace_toggle_on_off ⟨10, 11, 12⟩ 7 8 9 13 ⟨State.off, ⟨12, none⟩, 0, none, false⟩ rfl

/-- C9: an event whose id does not match the prop's identity string leaves
the prop entity — state, sprite image, texture atlas, light, flicker and
audio — completely unchanged, for both the fireplace and the stereo. -/
theorem handle_interaction_nonmatching_id_noop (fassets : Fireplace.SpriteAssets)
    (sassets : Stereo.SpriteAssets) (seed toff : ℚ) (ev : InteractionEvent)
    (fe : Fireplace.Ent) (se : Stereo.Ent) :
    (ev.id ≠ "fireplace" → Fireplace.tick fassets seed toff [ev] fe = fe) ∧
    (ev.id ≠ "stereo" → Stereo.tick sassets [ev] se = se) := by
  constructor
  · intro hne
    simp [Fireplace.tick, Fireplace.handle_interaction, Fireplace.handle_sound,
      Fireplace.handle_light, Fireplace.INTERACTABLE_ID, hne]
  · intro hne
    simp [Stereo.tick, Stereo.handle_interaction, Stereo.handle_sound,
      Stereo.INTERACTABLE_ID, hne]

/-- Concrete instance of C9: a "tree" event is ignored by both the
fireplace (here On with a flicker attached) and the stereo. -/
theorem handle_interaction_nonmatching_id_noop_witness :
    Fireplace.tick ⟨10, 11, 12⟩ 3 4 [⟨"tree"⟩]
      ⟨State.on, ⟨10, some (11, 2)⟩, 5, none, true⟩ =
      ⟨State.on, ⟨10, some (11, 2)⟩, 5, none, true⟩ ∧
    Stereo.tick ⟨20, 21, 22⟩ [⟨"tree"⟩] ⟨State.off, ⟨22, none⟩, false⟩ =
      ⟨State.off, ⟨22, none⟩, false⟩ :=
  ⟨(handle_interaction_nonmatching_id_noop ⟨10, 11, 12⟩ ⟨20, 21, 22⟩ 3 4 ⟨"tree"⟩
      ⟨State.on, ⟨10, some (11, 2)⟩, 5, none, true⟩ ⟨State.off, ⟨22, none⟩, false⟩).1
    (by decide),
   (handle_interaction_nonmatching_id_noop ⟨10, 11, 12⟩ ⟨20, 21, 22⟩ 3 4 ⟨"tree"⟩
      ⟨State.on, ⟨10, some (11, 2)⟩, 5, none, true⟩ ⟨State.off, ⟨22, none⟩, false⟩).2
    (by decide)⟩

/-! ## theman.rs movement and navigation (C4) -/

/-- Embeds input.rs Direction as used by theman.rs. -/
inductive Direction where
  | left
  | right
  | up
deriving DecidableEq

/-- Embeds theman.rs ManAssets (sprite handles as opaque ids). -/
structure ManAssets where
  walking_sprite : ℕ
  walking_layout : ℕ
  sitting_sprite : ℕ
  sitting_layout : ℕ
  standing_sprite : ℕ
  standing_layout : ℕ
deriving DecidableEq

/-- The character entity's state as touched by handle_movement,
handle_navigation_finished and the input-released branch of
handle_messages: state, direction, translation x and z, the optional
Navigation target, sprite and flip flag. -/
structure Man where
  state : ManState
  direction : Direction
  x : ℚ
  z : ℚ
  navigation : Option ℚ
  sprite : Sprite
  flip_x : Bool
deriving DecidableEq

def WALKING_SPEED : ℚ := 30

/-- The walking translation of handle_movement's direction match. -/
def walk_translation (dt : ℚ) (m : Man) : Man :=
  match m.direction with
  | .left => { m with x := m.x - WALKING_SPEED * dt, z := 10 }
  | .right => { m with x := m.x + WALKING_SPEED * dt, z := 10 }
  | .up => m

/-- Embeds theman.rs handle_movement: in Walking, when a Navigation target
exists and is reached for the current direction, set the state to Idle and
remove Navigation (the Bool reports the removal, feeding Bevy's
RemovedComponents); otherwise translate by the walking speed. -/
def handle_movement (dt : ℚ) (m : Man) : Man × Bool :=
  match m.state with
  | .walking =>
    match m.navigation with
    | some target =>
      if (m.direction = Direction.left ∧ m.x ≤ target) ∨
          (m.direction = Direction.right ∧ target ≤ m.x) then
        ({ m with state := ManState.idle, navigation := none }, true)
      else
        (walk_translation dt m, false)
    | none => (walk_translation dt m, false)
  | _ => (m, false)

/-- Embeds theman.rs handle_navigation_finished: reacting to a removed
Navigation component, swap to the standing sprite and set the state to
Action (the code's comment says Idle, but the code writes Action). -/
def handle_navigation_finished (assets : ManAssets) (removed : Bool) (m : Man) : Man :=
  if removed then
    { m with
        sprite := { image := assets.standing_sprite
                    texture_atlas := some (assets.standing_layout, 0) }
        flip_x := decide (m.direction = Direction.left)
        state := ManState.action }
  else m

/-- Embeds the (None, None) branch of theman.rs handle_messages: on a
released directional input, unless in Action or Sitting, swap to the
standing sprite and return to Idle. -/
def handle_messages_released (assets : ManAssets) (m : Man) : Man :=
  if m.state ≠ ManState.action ∧ m.state ≠ ManState.sitting then
    { m with
        sprite := { image := assets.standing_sprite
                    texture_atlas := some (assets.standing_layout, 0) }
        flip_x := decide (m.direction = Direction.left)
        state := ManState.idle }
  else m

/-- C4 counterexample: a Walking character moving right at x = 5 with
Navigation target 5 has reached its target; after handle_movement and the
RemovedComponents-driven handle_navigation_finished, the resulting state
is Action, not Idle as the claim asserts. -/
theorem navigation_reached_state_counterexample :
    (handle_navigation_finished ⟨1, 2, 3, 4, 5, 6⟩
      (handle_movement 1 ⟨ManState.walking, Direction.right, 5, 10, some 5, ⟨0, none⟩, false⟩).2
      (handle_movement 1 ⟨ManState.walking, Direction.right, 5, 10, some 5, ⟨0, none⟩, false⟩).1).state
      = ManState.action ∧
    ¬((handle_navigation_finished ⟨1, 2, 3, 4, 5, 6⟩
      (handle_movement 1 ⟨ManState.walking, Direction.right, 5, 10, some 5, ⟨0, none⟩, false⟩).2
      (handle_movement 1 ⟨ManState.walking, Direction.right, 5, 10, some 5, ⟨0, none⟩, false⟩).1).state
      = ManState.idle) := by
  have hred : handle_movement 1
      ⟨ManState.walking, Direction.right, 5, 10, some 5, ⟨0, none⟩, false⟩ =
      (⟨ManState.idle, Direction.right, 5, 10, none, ⟨0, none⟩, false⟩, true) := by
    rw [handle_movement]
    norm_num
  rw [hred]
  constructor
  · rfl
  · intro hcontra
    exact absurd hcontra (by simp [handle_navigation_finished])

/-- C4 (amended): Walking→Idle holds for the input-released path, but on
reaching the Navigation target handle_movement's Idle write is immediately
overridden: the Navigation removal triggers handle_navigation_finished,
which sets the state to Action, so the state for the next tick is Action
(which in turn drives the automatic interaction at the destination). -/
theorem navigation_reached_transitions_to_action (assets : ManAssets) (dt : ℚ)
    (m : Man) (target : ℚ) :
    (m.state = ManState.walking → m.navigation = some target →
      ((m.direction = Direction.left ∧ m.x ≤ target) ∨
        (m.direction = Direction.right ∧ target ≤ m.x)) →
      (handle_movement dt m).1.state = ManState.idle ∧
      (handle_movement dt m).1.navigation = none ∧
      (handle_movement dt m).2 = true ∧
      (handle_navigation_finished assets (handle_movement dt m).2
        (handle_movement dt m).1).state = ManState.action) ∧
    (m.state = ManState.walking →
      (handle_messages_released assets m).state = ManState.idle) := by
  obtain ⟨st, dir, x, z, nav, sp, fx⟩ := m
  constructor
  · intro hw hn hcond
    simp only at hw hn
    subst hw
    subst hn
    simp only at hcond
    have hred : handle_movement dt
        ⟨ManState.walking, dir, x, z, some target, sp, fx⟩ =
        (⟨ManState.idle, dir, x, z, none, sp, fx⟩, true) := by
      rw [handle_movement]
      dsimp only
      rw [if_pos hcond]
    rw [hred]
    exact ⟨rfl, rfl, rfl, by simp [handle_navigation_finished]⟩
  · intro hw
    simp only at hw
    subst hw
    simp [handle_messages_released]

/-- Concrete instance of the amended C4 at the target-reached input. -/
theorem navigation_reached_transitions_to_action_witness :
    (handle_movement 1 ⟨ManState.walking, Direction.right, 5, 10, some 5, ⟨0, none⟩, true⟩).1.state
      = ManState.idle ∧
    (handle_movement 1 ⟨ManState.walking, Direction.right, 5, 10, some 5, ⟨0, none⟩, true⟩).1.navigation
      = none ∧
    (handle_movement 1 ⟨ManState.walking, Direction.right, 5, 10, some 5, ⟨0, none⟩, true⟩).2
      = true ∧
    (handle_navigation_finished ⟨1, 2, 3, 4, 5, 6⟩
      (handle_movement 1 ⟨ManState.walking, Direction.right, 5, 10, some 5, ⟨0, none⟩, true⟩).2
      (handle_movement 1 ⟨ManState.walking, Direction.right, 5, 10, some 5, ⟨0, none⟩, true⟩).1).state
      = ManState.action :=
  (navigation_reached_transitions_to_action ⟨1, 2, 3, 4, 5, 6⟩ 1
    ⟨ManState.walking, Direction.right, 5, 10, some 5, ⟨0, none⟩, true⟩ 5).1
    rfl rfl (Or.inr ⟨rfl, le_refl 5⟩)

/-! ## flickering_light.rs softmax and weights (C6)

The f32 arithmetic of softmax is idealized over ℝ (exp is exact).  The
max fold's NEG_INFINITY start value is modelled in EReal; for a nonempty
logit list the fold is a coerced real and toReal recovers it, and for the
empty list the exp list is empty anyway, matching the source's empty
output. -/

noncomputable section

/-- Embeds flickering_light.rs softmax: scale by 1/temperature, shift by
the running max, exponentiate, and normalize by the sum. -/
def softmax (logits : List ℝ) (temperature : ℝ) : List ℝ :=
  let scaled_logits := logits.map (fun x => x / temperature)
  let max_logit : EReal := scaled_logits.foldl (fun a b => max a (b : EReal)) ⊥
  let exp_values := scaled_logits.map (fun x => Real.exp (x - max_logit.toReal))
  let sum := exp_values.sum
  exp_values.map (fun x => x / sum)

/-- The noise sample feeding a logit, as a real.  For octaves ≥ 1 generate
always returns a value; the none (NaN) fallback value 0 is unreachable
under that hypothesis. -/
def generateF (x y : ℚ) (octaves : ℕ) : ℝ :=
  match generate x y octaves with
  | some v => (v : ℝ)
  | none => 0

/-- Embeds flickering_light.rs weights: one decorrelated noise logit per
palette entry ((i as f32).mul_add(seed_offset, seed)), then softmax. -/
def weights (time seed frequency : ℚ) (number : ℕ) (octaves : ℕ)
    (seed_offset : ℚ) (temperature : ℝ) : List ℝ :=
  let logits := (List.range number).map fun (i : ℕ) =>
    generateF (time * frequency) ((i : ℚ) * seed_offset + seed) octaves
  softmax logits temperature

end

theorem sum_map_div (l : List ℝ) (s : ℝ) :
    (l.map (fun x => x / s)).sum = l.sum / s := by
  induction l with
  | nil => simp
  | cons a t ih => simp [ih, add_div]

/-- The final normalization stage produces a probability simplex whenever
the exponentiated values are positive. -/
theorem simplex_of_pos_sum (e : List ℝ) (he : e ≠ []) (hpos : ∀ v ∈ e, 0 < v) :
    (∀ w ∈ e.map (fun x => x / e.sum), 0 ≤ w) ∧
      (e.map (fun x => x / e.sum)).sum = 1 := by
  have hsum : 0 < e.sum := List.sum_pos e hpos he
  constructor
  · intro w hw
    rw [List.mem_map] at hw
    obtain ⟨v, hv, rfl⟩ := hw
    exact div_nonneg (hpos v hv).le hsum.le
  · rw [sum_map_div]
    exact div_self hsum.ne'

/-- C6: for any nonempty (finite) logits and temperature > 0, softmax
yields nonnegative entries summing to exactly 1; a single logit gets
weight exactly 1; and the weights produced from noise logits (number ≥ 1
palette entries, octaves ≥ 1 so every sample is finite — octaves = 0
would feed NaN into softmax and is outside this statement) form the same
simplex. -/
theorem softmax_weights_simplex (T : ℝ) (hT : 0 < T) :
    (∀ l : List ℝ, l ≠ [] →
      (∀ w ∈ softmax l T, 0 ≤ w) ∧ (softmax l T).sum = 1) ∧
    (∀ x : ℝ, softmax [x] T = [1]) ∧
    (∀ (time seed frequency seed_offset : ℚ) (number octaves : ℕ),
      1 ≤ number → 1 ≤ octaves →
      (∀ w ∈ weights time seed frequency number octaves seed_offset T, 0 ≤ w) ∧
      (weights time seed frequency number octaves seed_offset T).sum = 1) := by
  have core : ∀ l : List ℝ, l ≠ [] →
      (∀ w ∈ softmax l T, 0 ≤ w) ∧ (softmax l T).sum = 1 := by
    intro l hl
    simp only [softmax]
    refine simplex_of_pos_sum _ ?_ ?_
    · simp [hl]
    · intro v hv
      rw [List.mem_map] at hv
      obtain ⟨u, _, rfl⟩ := hv
      exact Real.exp_pos _
  refine ⟨core, ?_, ?_⟩
  · intro x
    have hmax : (([x].map (fun y => y / T)).foldl (fun a b => max a (b : EReal)) ⊥) =
        ((x / T : ℝ) : EReal) := by
      simp [max_eq_right (bot_le : (⊥ : EReal) ≤ _)]
    simp [softmax, hmax, Real.exp_zero]
  · intro time seed frequency seed_offset number octaves hn ho
    have hrw : weights time seed frequency number octaves seed_offset T =
        softmax ((List.range number).map fun (i : ℕ) =>
          generateF (time * frequency) ((i : ℚ) * seed_offset + seed) octaves) T := rfl
    rw [hrw]
    refine core _ ?_
    intro hnil
    have h0 : number = 0 := List.range_eq_nil.mp (List.map_eq_nil_iff.mp hnil)
    omega

/-- Concrete instance of C6: two equal logits at temperature 1 sum to 1,
and so do the weights for a 2-color palette from single-octave noise. -/
theorem softmax_weights_simplex_witness :
    (softmax [(0 : ℝ), 0] 1).sum = 1 ∧ (weights 1 2 3 2 1 4 1).sum = 1 :=
  ⟨((softmax_weights_simplex 1 (by norm_num)).1 [0, 0] (by simp)).2,
   ((softmax_weights_simplex 1 (by norm_num)).2.2 1 2 3 4 2 1
     (by norm_num) (by norm_num)).2⟩

end HolidayCard
